import Mathlib

/-!
Shallow embedding of src/Firmware/radio/at.c (SiK_Multipoint AT command
front end): the line editor (at_input), the +++ escape detector and timer
(at_plus_detector / at_timer), the numeric lexer (at_parse_number) and the
command dispatcher (at_command) with its sub-handlers.

Modelling conventions:
  - bytes and machine integers are Nat with explicit reductions
    (% 256 for a uint8 assignment, % 65536 for uint16, % 4294967296 for
    the uint32 accumulation of the lexer);
  - the command buffer at_cmd is modelled as the list of live characters
    before the terminating NUL; a read at or beyond the terminator yields
    0, the value of a freshly zeroed static array, via cmdGet (stale
    characters that a longer earlier command may have left behind the
    terminator are not modelled);
  - console output (putchar / printf) and collaborator calls are recorded
    in an Event trace; collaborator results come from an Env record of
    pure oracles;
  - the two deliberately non-returning paths (ATZ software reset and
    AT&UPDATE forced fault) are the reset / fault constructors of
    CmdResult;
  - the uint8 loop bounds of the C for loops are expressed with a fuel
    argument that equals the exact a priori bound of the loop, so that
    every definition evaluates by kernel reduction.
-/

namespace SiKAT

/-- ATP_COUNT_1S from at.c line 134: 100 ticks of the 100 Hz timer. -/
def ATP_COUNT_1S : Nat := 100

/-- Modelled from the spec: AT_CMD_MAXLEN, the fixed maximum command length,
is defined in radio.h, which is not part of src/; the spec fixes no numeric
value (length never exceeds a fixed maximum), the theorems below only use
that it is at least 2, and the firmware header value 16 is used. -/
def AT_CMD_MAXLEN : Nat := 16

/-- Modelled from the spec: PARAM_MAX, the number of S-registers, comes from
the parameter-store collaborator header outside src/; the spec fixes no
numeric value (validated against fixed upper limits); any positive value
gives the same verdicts below, and 15 is used. -/
def PARAM_MAX : Nat := 15

/-- Modelled from the spec: PIN_MAX, the number of user pins, comes from the
pin collaborator header outside src/ (a six entry pin table); any value
below 10 gives the same verdicts below. -/
def PIN_MAX : Nat := 6

/-- Modelled from the spec: AT_TEST_RSSI, one of two independent bits of the
diagnostic bitset (declared in at.h, outside src/). -/
def AT_TEST_RSSI : Nat := 1

/-- Modelled from the spec: AT_TEST_TDM, the second independent diagnostic
bit (declared in at.h, outside src/). -/
def AT_TEST_TDM : Nat := 2

/-- Modelled from the spec: the pin direction set {input, output} as a Bool,
output when true (pins_user.h is outside src/). -/
def PIN_OUTPUT : Bool := true

/-- Modelled from the spec: the input pin direction. -/
def PIN_INPUT : Bool := false

/-- C isdigit on a byte. -/
def isdigit (c : Nat) : Bool := decide (48 ≤ c ∧ c ≤ 57)

/-- C isprint on a byte (ASCII 0x20 to 0x7E). -/
def isprint (c : Nat) : Bool := decide (32 ≤ c ∧ c ≤ 126)

/-- C toupper on a byte. -/
def toupper (c : Nat) : Nat := if 97 ≤ c ∧ c ≤ 122 then c - 32 else c

/-- The escape detector states ATP_WAIT_FOR_* of at.c lines 128 to 132.
The C variable is a uint8; values above 4 are handled by the default arm of
the switch in at_plus_detector and are unreachable from the initial state,
so the five named states form the state space here. -/
inductive EscState
  | waitForIdle
  | waitForPlus1
  | waitForPlus2
  | waitForPlus3
  | waitForEnable
deriving DecidableEq

/-- The mutable globals of at.c that the specified core reads and writes:
the command buffer with its length and ready flag, the command mode flag,
the test mode bitset, and the escape detector state and tick counter. -/
structure AtState where
  at_cmd : List Nat
  at_cmd_ready : Bool
  at_mode_active : Bool
  at_testmode : Nat
  at_plus_state : EscState
  at_plus_counter : Nat
deriving DecidableEq

/-- The C variable at_cmd_len; in this model it always equals the length of
the live buffer content. -/
def at_cmd_len (st : AtState) : Nat := st.at_cmd.length

/-- Read of at_cmd[i]: cells at or beyond the terminator read as 0. -/
def cmdGet (l : List Nat) (i : Nat) : Nat := l.getD i 0

/-- The collaborator interfaces of at.c as pure oracles, plus the read-only
node identity. -/
structure Env where
  nodeId : Nat
  param_get : Nat → Nat
  param_set : Nat → Nat → Bool
  pins_user_get_io : Nat → Bool
  pins_user_get_value : Nat → Nat
  pins_user_get_adc : Nat → Nat
  pins_user_set_value : Nat → Nat → Bool
  tdm_state_sync : Nat

/-- A pin I/O operation issued to the pin collaborator. -/
inductive PinOp
  | setIo (pin : Nat) (out : Bool)
  | getIo (pin : Nat)
  | getAdc (pin : Nat)
  | setValue (pin : Nat) (v : Nat)
  | getValue (pin : Nat)
deriving DecidableEq

/-- The pin index an operation acts on. -/
def pinOf : PinOp → Nat
  | .setIo p _ => p
  | .getIo p => p
  | .getAdc p => p
  | .setValue p _ => p
  | .getValue p => p

/-- Observable effects: echoed bytes, printed reply lines (one constructor
per printf shape of at.c) and collaborator calls. -/
inductive Event
  | ch (c : Nat)
  | okLine (node : Nat)
  | errLine (node : Nat)
  | sregLine (node : Nat) (v : Nat)
  | bannerLine (node : Nat)
  | versionLine (node : Nat)
  | boardIdLine (node : Nat)
  | freqLine (node : Nat)
  | blVersionLine (node : Nat)
  | paramPrint (id : Nat)
  | paramDefault
  | paramSave
  | tdmReportTiming
  | tdmShowRssi
  | syncBase (node : Nat)
  | syncLine (node : Nat) (v : Nat)
  | pinDumpLine (node : Nat) (pin : Nat) (io : Bool) (v : Nat)
  | adcLine (node : Nat) (v : Nat)
  | pinCall (op : PinOp)
  | tdmRemoteAt (dest : Nat) (cmd : List Nat)
deriving DecidableEq

/-- at_input, at.c lines 69 to 113: the line editor. Returns the new state
and the echoed bytes. The CR case writes the terminator at index
at_cmd_len, which leaves the live content unchanged in this model. -/
def at_input (c : Nat) (st : AtState) : AtState × List Event :=
  if c = 13 then
    ({ st with at_cmd_ready := true }, [.ch 10])
  else if c = 8 ∨ c = 127 then
    (if 0 < st.at_cmd.length then
      ({ st with at_cmd := st.at_cmd.dropLast }, [.ch 8, .ch 32, .ch 8])
    else (st, []))
  else if st.at_cmd.length < AT_CMD_MAXLEN then
    (if isprint c then
      ({ st with at_cmd := st.at_cmd ++ [toupper c] }, [.ch (toupper c)])
    else (st, []))
  else
    ({ st with at_mode_active := false, at_cmd := [] }, [])

/-- at_plus_detector, at.c lines 141 to 173: a non-plus byte first forces
the state to wait-for-idle, then the switch acts on the updated state. The
default arm of the C switch (uint8 values above 4) has no counterpart here
because such values are unrepresentable in EscState. -/
def at_plus_detector (c : Nat) (st : AtState) : AtState :=
  let st1 := if c ≠ 43 then { st with at_plus_state := .waitForIdle } else st
  match st1.at_plus_state with
  | .waitForPlus1 => { st1 with at_plus_state := .waitForPlus2 }
  | .waitForPlus2 => { st1 with at_plus_state := .waitForPlus3 }
  | .waitForPlus3 =>
      { st1 with at_plus_state := .waitForEnable, at_plus_counter := ATP_COUNT_1S }
  | .waitForIdle => { st1 with at_plus_counter := ATP_COUNT_1S }
  | .waitForEnable => { st1 with at_plus_counter := ATP_COUNT_1S }

/-- at_timer, at.c lines 178 to 213: decrement a running counter; on
reaching zero, wait-for-idle advances to wait-for-plus1, and
wait-for-enable activates command mode and synthesizes the ready "AT"
line (writes A, T, NUL into cells 0, 1, 2 and sets at_cmd_len to 2). -/
def at_timer (st : AtState) : AtState :=
  if 0 < st.at_plus_counter then
    let st1 := { st with at_plus_counter := st.at_plus_counter - 1 }
    if st1.at_plus_counter = 0 then
      match st1.at_plus_state with
      | .waitForIdle => { st1 with at_plus_state := .waitForPlus1 }
      | .waitForEnable =>
          { st1 with at_mode_active := true, at_plus_state := .waitForIdle,
                     at_cmd := [65, 84], at_cmd_ready := true }
      | _ => st1
    else st1
  else st

/-- n timer ticks with no byte received in between. -/
def ticks : Nat → AtState → AtState
  | 0, st => st
  | n + 1, st => ticks n (at_timer st)

/-- The loop body of at_parse_number, at.c lines 216 to 231, on explicit
accumulator and cursor. The fuel argument bounds the number of iterations;
it is exact: when the caller passes length - idx, fuel runs out only with
the cursor at or beyond the terminator, where cmdGet reads 0, which is not
a digit, so the C loop would stop there as well. The accumulation reduces
modulo 2^32 as the uint32 reg does. -/
def at_parse_numberFuel (cmd : List Nat) : Nat → Nat → Nat → Nat × Nat
  | 0, reg, idx => (reg, idx)
  | fuel + 1, reg, idx =>
      let c := cmdGet cmd idx
      if isdigit c then
        at_parse_numberFuel cmd fuel ((reg * 10 + (c - 48)) % 4294967296) (idx + 1)
      else (reg, idx)

/-- at_parse_number: parse a decimal run at the cursor, returning the value
and the cursor left on the first non-digit. -/
def at_parse_number (cmd : List Nat) (idx : Nat) : Nat × Nat :=
  at_parse_numberFuel cmd (cmd.length - idx) 0 idx

/-- The maximal run of digit characters at a cursor (specification-side
companion of at_parse_number), with the same exact fuel. -/
def digitRunFuel (cmd : List Nat) : Nat → Nat → List Nat
  | 0, _ => []
  | fuel + 1, idx =>
      let c := cmdGet cmd idx
      if isdigit c then c :: digitRunFuel cmd fuel (idx + 1) else []

/-- The maximal digit run starting at idx. -/
def digitRun (cmd : List Nat) (idx : Nat) : List Nat :=
  digitRunFuel cmd (cmd.length - idx) idx

/-- The decimal interpretation of a digit-character run. -/
def decimalOf (ds : List Nat) : Nat :=
  ds.foldl (fun a d => a * 10 + (d - 48)) 0

/-- The comma scan loop of the RT branch, at.c lines 246 to 250: advance
from idx until at_cmd_len <= idx or a comma is found. The fuel equals
at_cmd_len - idx, so fuel exhaustion coincides with at_cmd_len <= idx. -/
def rtScanFuel (cmd : List Nat) : Nat → Nat → Nat
  | idx, 0 => idx
  | idx, fuel + 1 => if cmdGet cmd idx = 44 then idx else rtScanFuel cmd (idx + 1) fuel

/-- The comma scan of the RT branch starting at idx. -/
def rtScan (cmd : List Nat) (len idx : Nat) : Nat :=
  rtScanFuel cmd idx (len - idx)

/-- Clearing of the command buffer by the dispatcher: at_cmd_len = 0 and
at_cmd_ready = false (the array content behind length 0 is dead and is
modelled as cleared). -/
def clearCmd (st : AtState) : AtState :=
  { st with at_cmd := [], at_cmd_ready := false }

/-- at_ok, at.c lines 316 to 320. -/
def at_ok (env : Env) : List Event := [.okLine env.nodeId]

/-- at_error, at.c lines 322 to 326. -/
def at_error (env : Env) : List Event := [.errLine env.nodeId]

/-- at_i, at.c lines 328 to 375: information queries keyed on the fourth
character. -/
def at_i (env : Env) (st : AtState) : List Event :=
  match cmdGet st.at_cmd 3 with
  | 0 => [.bannerLine env.nodeId]
  | 48 => [.bannerLine env.nodeId]
  | 49 => [.versionLine env.nodeId]
  | 50 => [.boardIdLine env.nodeId]
  | 51 => [.freqLine env.nodeId]
  | 52 => [.blVersionLine env.nodeId]
  | 53 => (List.range PARAM_MAX).map (fun id => .paramPrint id)
  | 54 => [.tdmReportTiming]
  | 55 => [.tdmShowRssi]
  | 56 =>
      if env.nodeId = 0 then [.syncBase env.nodeId]
      else [.syncLine env.nodeId env.tdm_state_sync]
  | _ => at_error env

/-- at_s, at.c lines 377 to 410: the S-register sub-dispatcher. The parsed
uint32 is assigned to the uint8 sreg, hence the % 256. -/
def at_s (env : Env) (st : AtState) : List Event :=
  let p := at_parse_number st.at_cmd 3
  let sreg := p.1 % 256
  if PARAM_MAX ≤ sreg then at_error env
  else
    match cmdGet st.at_cmd p.2 with
    | 63 => [.sregLine env.nodeId (env.param_get sreg)]
    | 61 =>
        if 0 < sreg then
          (if env.param_set sreg (at_parse_number st.at_cmd (p.2 + 1)).1 then at_ok env
           else at_error env)
        else at_error env
    | _ => at_error env

/-- at_ampersand, at.c lines 412 to 455: none models the deliberate flash
fault of the UPDATE branch, which never returns. A C-string comparison of
at_cmd + 4 with a literal is the equality of the live content from index 4
with the literal character list. -/
def at_ampersand (env : Env) (st : AtState) : Option (AtState × List Event) :=
  match cmdGet st.at_cmd 3 with
  | 70 => some (st, .paramDefault :: at_ok env)
  | 87 => some (st, .paramSave :: at_ok env)
  | 85 =>
      if st.at_cmd.drop 4 = [80, 68, 65, 84, 69] then none
      else some (st, at_error env)
  | 84 =>
      if st.at_cmd.drop 4 = [] then some ({ st with at_testmode := 0 }, [])
      else if st.at_cmd.drop 4 = [61, 82, 83, 83, 73] then
        some ({ st with at_testmode := st.at_testmode ^^^ AT_TEST_RSSI }, [])
      else if st.at_cmd.drop 4 = [61, 84, 68, 77] then
        some ({ st with at_testmode := st.at_testmode ^^^ AT_TEST_TDM }, [])
      else some (st, at_error env)
  | _ => some (st, at_error env)

/-- at_p, at.c lines 457 to 528: the pin sub-dispatcher. Collaborator calls
are recorded as pinCall events in source order. -/
def at_p (env : Env) (st : AtState) : List Event :=
  if cmdGet st.at_cmd 3 = 80 then
    (List.range PIN_MAX).flatMap (fun pin =>
      [.pinCall (.getIo pin), .pinCall (.getValue pin),
       .pinDumpLine env.nodeId pin (env.pins_user_get_io pin) (env.pins_user_get_value pin)])
  else if cmdGet st.at_cmd 4 ≠ 61 ∨ ¬ isdigit (cmdGet st.at_cmd 5) then
    at_error env
  else
    let pinId := cmdGet st.at_cmd 5 - 48
    match cmdGet st.at_cmd 3 with
    | 79 => .pinCall (.setIo pinId PIN_OUTPUT) :: at_ok env
    | 73 => .pinCall (.setIo pinId PIN_INPUT) :: at_ok env
    | 82 =>
        if env.pins_user_get_io pinId = PIN_INPUT then
          [.pinCall (.getIo pinId), .pinCall (.getAdc pinId),
           .adcLine env.nodeId (env.pins_user_get_adc pinId)]
        else [.pinCall (.getIo pinId)] ++ at_error env
    | 67 =>
        if ¬ isdigit (cmdGet st.at_cmd 7) then at_error env
        else if env.pins_user_set_value pinId (cmdGet st.at_cmd 7 - 48) then
          .pinCall (.setValue pinId (cmdGet st.at_cmd 7 - 48)) :: at_ok env
        else .pinCall (.setValue pinId (cmdGet st.at_cmd 7 - 48)) :: at_error env
    | _ => at_error env

/-- at_plus, at.c lines 530 to 584. Modelled from the spec: the body is
conditional on the BOARD_rfd900a platform macro, whose build configuration
is outside src/; the spec states the sub-dispatcher unconditionally errors
when the platform extension is unavailable, which is the variant embedded
here. -/
def at_plus (env : Env) (_st : AtState) : List Event := at_error env

/-- Result of one dispatcher invocation: a normal return with the new state
and the emitted events, or one of the two deliberately non-returning paths
(ATZ software reset, AT&UPDATE forced fault), with the events emitted
before divergence. -/
inductive CmdResult
  | normal (st : AtState) (out : List Event)
  | reset (out : List Event)
  | fault (out : List Event)
deriving DecidableEq

/-- at_command, at.c lines 233 to 314: the dispatcher. The RT branch scans
for a comma from offset 3, truncates at the comma and forwards the buffer
with the parsed uint16 destination, or forwards to broadcast 0xFFFF; the
AT branch dispatches on the third character; in every returning path the
buffer is cleared and the ready flag reset at the end. -/
def at_command (env : Env) (st : AtState) : CmdResult :=
  if st.at_cmd_ready then
    if 2 ≤ st.at_cmd.length ∧ cmdGet st.at_cmd 0 = 82 ∧ cmdGet st.at_cmd 1 = 84 then
      let i := rtScan st.at_cmd st.at_cmd.length 3
      if cmdGet st.at_cmd i = 44 then
        let cmd2 := st.at_cmd.set i 0
        .normal (clearCmd { st with at_cmd := cmd2 })
          [.tdmRemoteAt ((at_parse_number cmd2 (i + 1)).1 % 65536) cmd2]
      else
        .normal (clearCmd st) [.tdmRemoteAt 65535 st.at_cmd]
    else if 2 ≤ st.at_cmd.length ∧ cmdGet st.at_cmd 0 = 65 ∧ cmdGet st.at_cmd 1 = 84 then
      match cmdGet st.at_cmd 2 with
      | 0 => .normal (clearCmd st) (at_ok env)
      | 38 =>
          match at_ampersand env st with
          | some (st1, out) => .normal (clearCmd st1) out
          | none => .fault []
      | 43 => .normal (clearCmd st) (at_plus env st)
      | 73 => .normal (clearCmd st) (at_i env st)
      | 80 => .normal (clearCmd st) (at_p env st)
      | 79 =>
          .normal (clearCmd { st with at_plus_counter := ATP_COUNT_1S,
                                      at_mode_active := false }) []
      | 83 => .normal (clearCmd st) (at_s env st)
      | 90 => .reset []
      | _ => .normal (clearCmd st) (at_error env)
    else
      .normal (clearCmd st) []
  else
    .normal st []

/-- The buffer cells written by one at_input call (at.c lines 77, 98):
the CR terminator write at at_cmd_len, or the append at at_cmd_len. -/
def at_input_writes (c : Nat) (st : AtState) : List Nat :=
  if c = 13 then [st.at_cmd.length]
  else if c = 8 ∨ c = 127 then []
  else if st.at_cmd.length < AT_CMD_MAXLEN then
    (if isprint c then [st.at_cmd.length] else [])
  else []

/-- The buffer cells written by one at_timer call (at.c lines 202 to 204):
the synthesized A, T, NUL on an enable timeout. -/
def at_timer_writes (st : AtState) : List Nat :=
  if 0 < st.at_plus_counter ∧ st.at_plus_counter - 1 = 0 ∧
     st.at_plus_state = EscState.waitForEnable then [0, 1, 2]
  else []

/-- The buffer cells written by one at_command call (at.c line 255): the
terminator over the comma of an RT command. -/
def at_command_writes (st : AtState) : List Nat :=
  if st.at_cmd_ready ∧ 2 ≤ st.at_cmd.length ∧
     cmdGet st.at_cmd 0 = 82 ∧ cmdGet st.at_cmd 1 = 84 ∧
     cmdGet st.at_cmd (rtScan st.at_cmd st.at_cmd.length 3) = 44 then
    [rtScan st.at_cmd st.at_cmd.length 3]
  else []

/-- The initial values of the at.c globals: empty buffer, flags false,
detector in wait-for-idle with a full counter (at.c lines 45 to 56, 136,
137). -/
def atInit : AtState :=
  { at_cmd := [], at_cmd_ready := false, at_mode_active := false,
    at_testmode := 0, at_plus_state := .waitForIdle, at_plus_counter := ATP_COUNT_1S }

/-- States reachable from the initial configuration by any interleaving of
detector byte events and timer ticks. -/
inductive Reachable : AtState → Prop
  | init : Reachable atInit
  | det (c : Nat) (st : AtState) : Reachable st → Reachable (at_plus_detector c st)
  | tick (st : AtState) : Reachable st → Reachable (at_timer st)

/-- Three plus bytes fed to the detector in immediate succession. -/
def plus3 (st : AtState) : AtState :=
  at_plus_detector 43 (at_plus_detector 43 (at_plus_detector 43 st))

/-- A fixed concrete collaborator environment used by concrete runs. -/
def envFix : Env :=
  { nodeId := 0, param_get := fun _ => 7, param_set := fun _ _ => true,
    pins_user_get_io := fun _ => false, pins_user_get_value := fun _ => 0,
    pins_user_get_adc := fun _ => 0, pins_user_set_value := fun _ _ => true,
    tdm_state_sync := 0 }

lemma reachable_ticks (n : Nat) (st : AtState) (h : Reachable st) :
    Reachable (ticks n st) := by
  induction n generalizing st with
  | zero => exact h
  | succ n ih => exact ih _ (Reachable.tick st h)

lemma at_timer_zero (st : AtState) (h : st.at_plus_counter = 0) : at_timer st = st := by
  simp [at_timer, h]

lemma ticks_zero_counter (n : Nat) (st : AtState) (h : st.at_plus_counter = 0) :
    ticks n st = st := by
  induction n with
  | zero => rfl
  | succ n ih => show ticks n (at_timer st) = st; rw [at_timer_zero st h]; exact ih

lemma ticks_idle_run (c : Nat) : ∀ st : AtState, st.at_plus_state = EscState.waitForIdle →
    st.at_plus_counter = c → 0 < c →
    ticks c st = { st with at_plus_state := .waitForPlus1, at_plus_counter := 0 } := by
  induction c with
  | zero => intro st _ _ h; omega
  | succ c ih =>
      intro st hs hc _
      show ticks c (at_timer st) = _
      rcases Nat.eq_zero_or_pos c with h0 | h0
      · subst h0
        have ht : at_timer st =
            { st with at_plus_state := .waitForPlus1, at_plus_counter := 0 } := by
          simp [at_timer, hc, hs]
        rw [ht]; rfl
      · have ht : at_timer st = { st with at_plus_counter := c } := by
          simp [at_timer, hc, hs, Nat.pos_iff_ne_zero.mp h0]
        rw [ht]
        exact ih _ hs rfl h0

lemma ticks_idle_partial (k : Nat) : ∀ (c : Nat) (st : AtState),
    st.at_plus_state = EscState.waitForIdle → st.at_plus_counter = c → k < c →
    ticks k st = { st with at_plus_counter := c - k } := by
  induction k with
  | zero =>
      intro c st _ hc _
      show st = _
      rw [Nat.sub_zero, ← hc]
  | succ k ih =>
      intro c st hs hc hk
      show ticks k (at_timer st) = _
      have ht : at_timer st = { st with at_plus_counter := c - 1 } := by
        have h1 : c - 1 ≠ 0 := by omega
        simp [at_timer, hc, hs, h1, Nat.lt_of_lt_of_le (Nat.zero_lt_succ k) (le_of_lt hk)]
      rw [ht]
      have hres := ih (c - 1) { st with at_plus_counter := c - 1 } hs rfl (by omega)
      rw [hres]
      have harith : c - 1 - k = c - (k + 1) := by omega
      rw [harith]

lemma ticks_enable_run (c : Nat) : ∀ st : AtState,
    st.at_plus_state = EscState.waitForEnable → st.at_plus_counter = c → 0 < c →
    ticks c st = { st with
      at_plus_state := .waitForIdle, at_plus_counter := 0,
      at_mode_active := true, at_cmd := [65, 84], at_cmd_ready := true } := by
  induction c with
  | zero => intro st _ _ h; omega
  | succ c ih =>
      intro st hs hc _
      show ticks c (at_timer st) = _
      rcases Nat.eq_zero_or_pos c with h0 | h0
      · subst h0
        have ht : at_timer st = { st with
            at_plus_state := .waitForIdle, at_plus_counter := 0,
            at_mode_active := true, at_cmd := [65, 84], at_cmd_ready := true } := by
          simp [at_timer, hc, hs]
        rw [ht]; rfl
      · have ht : at_timer st = { st with at_plus_counter := c } := by
          simp [at_timer, hc, hs, Nat.pos_iff_ne_zero.mp h0]
        rw [ht]
        exact ih _ hs rfl h0

lemma det_nonplus (c : Nat) (st : AtState) (h : c ≠ 43) :
    at_plus_detector c st =
      { st with at_plus_state := .waitForIdle, at_plus_counter := ATP_COUNT_1S } := by
  simp [at_plus_detector, h]

lemma det_plus_idle (st : AtState) (h : st.at_plus_state = EscState.waitForIdle) :
    at_plus_detector 43 st = { st with at_plus_counter := ATP_COUNT_1S } := by
  simp [at_plus_detector, h]

lemma det_plus_p1 (st : AtState) (h : st.at_plus_state = EscState.waitForPlus1) :
    at_plus_detector 43 st = { st with at_plus_state := .waitForPlus2 } := by
  simp [at_plus_detector, h]

lemma det_plus_p2 (st : AtState) (h : st.at_plus_state = EscState.waitForPlus2) :
    at_plus_detector 43 st = { st with at_plus_state := .waitForPlus3 } := by
  simp [at_plus_detector, h]

lemma det_plus_p3 (st : AtState) (h : st.at_plus_state = EscState.waitForPlus3) :
    at_plus_detector 43 st =
      { st with at_plus_state := .waitForEnable, at_plus_counter := ATP_COUNT_1S } := by
  simp [at_plus_detector, h]

lemma plus3_p1 (st : AtState) (h : st.at_plus_state = EscState.waitForPlus1) :
    plus3 st = { st with at_plus_state := .waitForEnable, at_plus_counter := ATP_COUNT_1S } := by
  simp [plus3, at_plus_detector, h]

lemma plus3_idle (st : AtState) (h : st.at_plus_state = EscState.waitForIdle) :
    plus3 st = { st with at_plus_counter := ATP_COUNT_1S } := by
  simp [plus3, at_plus_detector, h]

/-- The trace of the escape sequence fed during ongoing data: one non-plus
byte, at least a full idle duration of silent ticks, three plus bytes, at
least a full idle duration of silent ticks. -/
def escTraceA (st : AtState) (b m n : Nat) : AtState :=
  ticks n (ticks ATP_COUNT_1S (plus3 (ticks m (ticks ATP_COUNT_1S (at_plus_detector b st)))))

/-- The trace of three plus bytes arriving immediately after a non-plus
byte, with no idle period. -/
def escTraceB (st : AtState) (b : Nat) : AtState := plus3 (at_plus_detector b st)

/-- Claim C2: a byte that is neither CR nor backspace nor delete, arriving
while the buffer already holds AT_CMD_MAXLEN characters, silently abandons
command mode: at_mode_active becomes false, at_cmd_len becomes 0, and no
byte is echoed and no reply produced. -/
theorem claim_C2 (c : Nat) (st : AtState) (hl : st.at_cmd.length = AT_CMD_MAXLEN)
    (h13 : c ≠ 13) (h8 : c ≠ 8) (h127 : c ≠ 127) :
    (at_input c st).1.at_mode_active = false ∧ at_cmd_len (at_input c st).1 = 0 ∧
    (at_input c st).2 = [] := by
  simp [at_input, at_cmd_len, h13, h8, h127, hl, AT_CMD_MAXLEN]

/-- Witness for claim C2 at a full buffer of sixteen letters and byte 66. -/
theorem claim_C2_witness :
    (at_input 66 ⟨List.replicate 16 65, false, true, 0, .waitForIdle, 100⟩).1.at_mode_active
      = false ∧
    at_cmd_len (at_input 66 ⟨List.replicate 16 65, false, true, 0, .waitForIdle, 100⟩).1 = 0 ∧
    (at_input 66 ⟨List.replicate 16 65, false, true, 0, .waitForIdle, 100⟩).2 = [] :=
  claim_C2 66 ⟨List.replicate 16 65, false, true, 0, .waitForIdle, 100⟩ (by decide)
    (by decide) (by decide) (by decide)

/-- Claim C3: while the detector is armed-for-enable, any byte resets the
counter to the full duration, a plus keeps the armed state and a non-plus
returns to idle; and for every state a non-plus byte forces the state to
idle. -/
theorem claim_C3 (c : Nat) (st : AtState) :
    (st.at_plus_state = EscState.waitForEnable →
      (at_plus_detector c st).at_plus_counter = ATP_COUNT_1S ∧
      (c = 43 → (at_plus_detector c st).at_plus_state = EscState.waitForEnable) ∧
      (c ≠ 43 → (at_plus_detector c st).at_plus_state = EscState.waitForIdle)) ∧
    (c ≠ 43 → (at_plus_detector c st).at_plus_state = EscState.waitForIdle) := by
  constructor
  · intro hE
    by_cases hc : c = 43
    · subst hc
      simp [at_plus_detector, hE]
    · simp [at_plus_detector, hc]
  · intro hc
    simp [at_plus_detector, hc]

/-- Witness for claim C3 in the armed state with byte 43 and byte 65. -/
theorem claim_C3_witness :
    (at_plus_detector 43 ⟨[], false, false, 0, .waitForEnable, 7⟩).at_plus_counter
        = ATP_COUNT_1S ∧
    (at_plus_detector 65 ⟨[], false, false, 0, .waitForEnable, 7⟩).at_plus_state
        = EscState.waitForIdle :=
  ⟨((claim_C3 43 ⟨[], false, false, 0, .waitForEnable, 7⟩).1 rfl).1,
   (claim_C3 65 ⟨[], false, false, 0, .waitForEnable, 7⟩).2 (by decide)⟩

/-- Claim C10: in every state reachable from the initial configuration by
detector byte events and timer ticks, the three seen-plus states always
carry a zero tick counter, so only idle and armed-for-enable can have a
running counter. -/
theorem claim_C10 (st : AtState) (h : Reachable st)
    (hp : st.at_plus_state = EscState.waitForPlus1 ∨
          st.at_plus_state = EscState.waitForPlus2 ∨
          st.at_plus_state = EscState.waitForPlus3) :
    st.at_plus_counter = 0 := by
  induction h with
  | init => simp [atInit] at hp
  | det c st hR ih =>
      by_cases hc : c = 43
      · subst hc
        cases hs : st.at_plus_state with
        | waitForIdle => simp [at_plus_detector, hs] at hp
        | waitForPlus1 =>
            simp only [at_plus_detector, ne_eq, not_true_eq_false, if_neg, ite_false, hs] at hp ⊢
            simp [hs] at hp ⊢
            exact ih (Or.inl hs)
        | waitForPlus2 =>
            simp [at_plus_detector, hs] at hp ⊢
            exact ih (Or.inr (Or.inl hs))
        | waitForPlus3 => simp [at_plus_detector, hs] at hp
        | waitForEnable => simp [at_plus_detector, hs] at hp
      · simp [at_plus_detector, hc] at hp
  | tick st hR ih =>
      by_cases h0 : 0 < st.at_plus_counter
      · by_cases h1 : st.at_plus_counter - 1 = 0
        · cases hs : st.at_plus_state with
          | waitForIdle => simp [at_timer, h0, h1, hs] at hp ⊢
          | waitForPlus1 => simp [at_timer, h0, h1, hs] at hp ⊢
          | waitForPlus2 => simp [at_timer, h0, h1, hs] at hp ⊢
          | waitForPlus3 => simp [at_timer, h0, h1, hs] at hp ⊢
          | waitForEnable => simp [at_timer, h0, h1, hs] at hp
        · have hz := ih
          simp [at_timer, h0, h1] at hp ⊢
          have := ih hp
          omega
      · simp [at_timer, h0] at hp ⊢
        exact ih hp

set_option maxRecDepth 4000 in
/-- Witness for claim C10: after one hundred ticks from the initial state
the detector sits in seen-plus-1, and the theorem yields a zero counter. -/
theorem claim_C10_witness : (ticks 100 atInit).at_plus_counter = 0 :=
  claim_C10 (ticks 100 atInit) (reachable_ticks 100 atInit Reachable.init)
    (Or.inl (by decide))

/-- A starting state with the detector idle and the counter stopped at
zero, as left behind by an enable timeout. -/
def cexStart : AtState := ⟨[], false, false, 0, .waitForIdle, 0⟩

set_option maxRecDepth 8000 in
/-- Claim C1, original quantification refuted: from the starting state with
the detector idle and the counter zero, the exact trace of the claim (a
full idle duration of ticks, three plus bytes, a full idle duration of
ticks) leaves ModeFlag false, leaves the detector in seen-plus-1 rather
than idle, and synthesizes no ready line: the idle-state counter is not
running, so the quiet period before the pluses is never registered. -/
theorem claim_C1_cex :
    (ticks ATP_COUNT_1S (plus3 (ticks ATP_COUNT_1S cexStart))).at_mode_active = false ∧
    (ticks ATP_COUNT_1S (plus3 (ticks ATP_COUNT_1S cexStart))).at_plus_state ≠
      EscState.waitForIdle ∧
    (ticks ATP_COUNT_1S (plus3 (ticks ATP_COUNT_1S cexStart))).at_cmd_ready = false := by
  decide

/-- Claim C1 (amended): when the sequence arrives during ongoing data, that
is, immediately after some non-plus byte, then from every starting state
the trace of at least one full idle duration of silent ticks, three plus
bytes, and at least one full idle duration of silent ticks sets ModeFlag,
resets the escape state to idle and synthesizes the ready command line AT
of length 2; and three plus bytes immediately after a non-plus byte, with
no prior idle period, never reach the armed-for-enable state nor change
ModeFlag within one idle duration of ticks. -/
theorem claim_C1 (st : AtState) (b : Nat) (hb : b ≠ 43) (m n k : Nat)
    (hk : k ≤ ATP_COUNT_1S) :
    (escTraceA st b m n).at_mode_active = true ∧
    (escTraceA st b m n).at_plus_state = EscState.waitForIdle ∧
    (escTraceA st b m n).at_cmd = [65, 84] ∧
    at_cmd_len (escTraceA st b m n) = 2 ∧
    (escTraceA st b m n).at_cmd_ready = true ∧
    (escTraceB st b).at_plus_state = EscState.waitForIdle ∧
    (ticks k (escTraceB st b)).at_plus_state ≠ EscState.waitForEnable ∧
    (ticks k (escTraceB st b)).at_mode_active = st.at_mode_active := by
  have h1 : at_plus_detector b st =
      { st with at_plus_state := .waitForIdle, at_plus_counter := ATP_COUNT_1S } :=
    det_nonplus b st hb
  have h2 : ticks ATP_COUNT_1S (at_plus_detector b st) =
      { st with at_plus_state := .waitForPlus1, at_plus_counter := 0 } := by
    rw [h1]
    exact ticks_idle_run ATP_COUNT_1S _ rfl rfl (by decide)
  have h3 : ticks m (ticks ATP_COUNT_1S (at_plus_detector b st)) =
      { st with at_plus_state := .waitForPlus1, at_plus_counter := 0 } := by
    rw [h2]
    exact ticks_zero_counter m _ rfl
  have h4 : plus3 (ticks m (ticks ATP_COUNT_1S (at_plus_detector b st))) =
      { st with at_plus_state := .waitForEnable, at_plus_counter := ATP_COUNT_1S } := by
    rw [h3]
    exact plus3_p1 _ rfl
  have h5 : ticks ATP_COUNT_1S (plus3 (ticks m (ticks ATP_COUNT_1S (at_plus_detector b st)))) =
      { st with
        at_plus_state := .waitForIdle, at_plus_counter := 0,
        at_mode_active := true, at_cmd := [65, 84], at_cmd_ready := true } := by
    rw [h4]
    exact ticks_enable_run ATP_COUNT_1S _ rfl rfl (by decide)
  have h6 : escTraceA st b m n = { st with
      at_plus_state := .waitForIdle, at_plus_counter := 0,
      at_mode_active := true, at_cmd := [65, 84], at_cmd_ready := true } := by
    unfold escTraceA
    rw [h5]
    exact ticks_zero_counter n _ rfl
  have hB : escTraceB st b =
      { st with at_plus_state := .waitForIdle, at_plus_counter := ATP_COUNT_1S } := by
    unfold escTraceB
    rw [h1]
    exact plus3_idle _ rfl
  have htk : (ticks k (escTraceB st b)).at_plus_state ≠ EscState.waitForEnable ∧
      (ticks k (escTraceB st b)).at_mode_active = st.at_mode_active := by
    rcases Nat.lt_or_ge k ATP_COUNT_1S with hlt | hge
    · rw [hB, ticks_idle_partial k ATP_COUNT_1S _ rfl rfl hlt]
      exact ⟨by simp, rfl⟩
    · have hk100 : k = ATP_COUNT_1S := le_antisymm hk hge
      subst hk100
      rw [hB, ticks_idle_run ATP_COUNT_1S _ rfl rfl (by decide)]
      exact ⟨by simp, rfl⟩
  refine ⟨?_, ?_, ?_, ?_, ?_, ?_, htk.1, htk.2⟩
  · rw [h6]
  · rw [h6]
  · rw [h6]
  · rw [h6]; rfl
  · rw [h6]
  · rw [hB]

/-- Witness for claim C1 at the initial state, byte 65, no extra ticks, and
one hundred silent ticks for the no-idle half. -/
theorem claim_C1_witness :
    (escTraceA atInit 65 0 0).at_mode_active = true ∧
    (ticks 100 (escTraceB atInit 65)).at_plus_state ≠ EscState.waitForEnable :=
  ⟨(claim_C1 atInit 65 (by decide) 0 0 100 (by decide)).1,
   (claim_C1 atInit 65 (by decide) 0 0 100 (by decide)).2.2.2.2.2.2.1⟩

lemma cmdGet_of_le (cmd : List Nat) (i : Nat) (h : cmd.length ≤ i) : cmdGet cmd i = 0 := by
  simp [cmdGet, List.getD, List.getElem?_eq_none h]

lemma foldl_step_mod (ds : List Nat) : ∀ a b : Nat, a % 4294967296 = b % 4294967296 →
    (ds.foldl (fun x d => x * 10 + (d - 48)) a) % 4294967296 =
    (ds.foldl (fun x d => x * 10 + (d - 48)) b) % 4294967296 := by
  induction ds with
  | nil => intro a b h; simpa using h
  | cons d ds ih =>
      intro a b h
      simp only [List.foldl_cons]
      apply ih
      have h2 : a * 10 % 4294967296 = b * 10 % 4294967296 := by
        conv_lhs => rw [Nat.mul_mod, h]
        rw [← Nat.mul_mod]
      omega

lemma parseFuel_spec (fuel : Nat) : ∀ (cmd : List Nat) (reg idx : Nat),
    cmd.length ≤ idx + fuel → reg < 4294967296 →
    at_parse_numberFuel cmd fuel reg idx =
      ((digitRunFuel cmd fuel idx).foldl (fun x d => x * 10 + (d - 48)) reg % 4294967296,
       idx + (digitRunFuel cmd fuel idx).length) := by
  induction fuel with
  | zero =>
      intro cmd reg idx hlen hreg
      simp [at_parse_numberFuel, digitRunFuel, Nat.mod_eq_of_lt hreg]
  | succ fuel ih =>
      intro cmd reg idx hlen hreg
      by_cases hd : isdigit (cmdGet cmd idx) = true
      · simp only [at_parse_numberFuel, digitRunFuel, hd, if_true]
        rw [ih cmd _ (idx + 1) (by omega) (Nat.mod_lt _ (by norm_num))]
        simp only [List.foldl_cons, List.length_cons, Prod.mk.injEq]
        constructor
        · exact foldl_step_mod _ _ _ (Nat.mod_mod_of_dvd _ dvd_rfl)
        · omega
      · simp [at_parse_numberFuel, digitRunFuel, hd, Nat.mod_eq_of_lt hreg]

lemma digitRunFuel_stop (fuel : Nat) : ∀ (cmd : List Nat) (idx : Nat),
    cmd.length ≤ idx + fuel →
    isdigit (cmdGet cmd (idx + (digitRunFuel cmd fuel idx).length)) = false := by
  induction fuel with
  | zero =>
      intro cmd idx hlen
      have h0 : (digitRunFuel cmd 0 idx).length = 0 := rfl
      rw [h0, Nat.add_zero, cmdGet_of_le cmd idx (by omega)]
      rfl
  | succ fuel ih =>
      intro cmd idx hlen
      cases hd : isdigit (cmdGet cmd idx) with
      | false =>
          have h1 : digitRunFuel cmd (fuel + 1) idx = [] := by
            simp [digitRunFuel, hd]
          rw [h1]
          simpa using hd
      | true =>
          have h1 : digitRunFuel cmd (fuel + 1) idx =
              cmdGet cmd idx :: digitRunFuel cmd fuel (idx + 1) := by
            simp [digitRunFuel, hd]
          rw [h1, List.length_cons]
          have harith : idx + ((digitRunFuel cmd fuel (idx + 1)).length + 1) =
              (idx + 1) + (digitRunFuel cmd fuel (idx + 1)).length := by omega
          rw [harith]
          exact ih cmd (idx + 1) (by omega)

/-- Claim C5: at_parse_number advances the cursor exactly past the maximal
run of decimal digits at the cursor, returns its decimal interpretation
modulo 2^32, leaves the cursor on the first non-digit, and returns 0 with
the cursor unchanged when the character at the cursor is not a digit. -/
theorem claim_C5 (cmd : List Nat) (idx : Nat) :
    at_parse_number cmd idx =
      (decimalOf (digitRun cmd idx) % 4294967296, idx + (digitRun cmd idx).length) ∧
    isdigit (cmdGet cmd (idx + (digitRun cmd idx).length)) = false ∧
    (isdigit (cmdGet cmd idx) = false → at_parse_number cmd idx = (0, idx)) := by
  have hfuel : cmd.length ≤ idx + (cmd.length - idx) := by omega
  refine ⟨?_, ?_, ?_⟩
  · unfold at_parse_number digitRun decimalOf
    exact parseFuel_spec _ cmd 0 idx hfuel (by norm_num)
  · unfold digitRun
    exact digitRunFuel_stop _ cmd idx hfuel
  · intro hnd
    unfold at_parse_number
    cases hf : cmd.length - idx with
    | zero => simp [at_parse_numberFuel]
    | succ f => simp [at_parse_numberFuel, hnd]

/-- Witness for claim C5 on the run 123 and on a non-digit start. -/
theorem claim_C5_witness :
    at_parse_number [49, 50, 51] 0 =
      (decimalOf (digitRun [49, 50, 51] 0) % 4294967296,
       0 + (digitRun [49, 50, 51] 0).length) ∧
    at_parse_number [65] 0 = (0, 0) :=
  ⟨(claim_C5 [49, 50, 51] 0).1, (claim_C5 [65] 0).2.2 (by decide)⟩

/-- The ready line ATS256? as left by the line editor. -/
def stS256 : AtState := ⟨[65, 84, 83, 50, 53, 54, 63], true, true, 0, .waitForIdle, 100⟩

/-- The ready line ATS0? as left by the line editor. -/
def stS0q : AtState := ⟨[65, 84, 83, 48, 63], true, true, 0, .waitForIdle, 100⟩

/-- Claim C4, original wording refuted: on the line ATS256? the register
index parsed at offset 3 is 256, at least PARAM_MAX, yet the reply is not
ERROR: the parsed uint32 is assigned to the uint8 sreg, so 256 truncates
to 0 and the read-only register 0 is printed instead. -/
theorem claim_C4_cex :
    (at_parse_number stS256.at_cmd 3).1 = 256 ∧
    PARAM_MAX ≤ (at_parse_number stS256.at_cmd 3).1 ∧
    at_s envFix stS256 = [Event.sregLine 0 7] ∧
    at_s envFix stS256 ≠ [Event.errLine 0] := by
  decide

/-- Claim C4 (amended): for a ready line beginning ATS, with the register
index taken modulo 256 (the parsed uint32 is stored in a uint8): an index
at least PARAM_MAX replies ERROR; an in-range index followed by a question
mark prints the register value, including for the read-only register 0; an
in-range index followed by an equals sign replies OK exactly when the index
is nonzero and the parameter store accepts the parsed value, and ERROR
otherwise. -/
theorem claim_C4 (env : Env) (st : AtState)
    (h0 : cmdGet st.at_cmd 0 = 65) (h1 : cmdGet st.at_cmd 1 = 84)
    (h2 : cmdGet st.at_cmd 2 = 83) :
    (PARAM_MAX ≤ (at_parse_number st.at_cmd 3).1 % 256 →
      at_s env st = [Event.errLine env.nodeId]) ∧
    ((at_parse_number st.at_cmd 3).1 % 256 < PARAM_MAX →
      cmdGet st.at_cmd (at_parse_number st.at_cmd 3).2 = 63 →
      at_s env st =
        [Event.sregLine env.nodeId (env.param_get ((at_parse_number st.at_cmd 3).1 % 256))]) ∧
    ((at_parse_number st.at_cmd 3).1 % 256 < PARAM_MAX →
      cmdGet st.at_cmd (at_parse_number st.at_cmd 3).2 = 61 →
      ((at_s env st = [Event.okLine env.nodeId] ↔
        (0 < (at_parse_number st.at_cmd 3).1 % 256 ∧
         env.param_set ((at_parse_number st.at_cmd 3).1 % 256)
           (at_parse_number st.at_cmd ((at_parse_number st.at_cmd 3).2 + 1)).1 = true)) ∧
       (at_s env st ≠ [Event.okLine env.nodeId] →
        at_s env st = [Event.errLine env.nodeId]))) := by
  refine ⟨?_, ?_, ?_⟩
  · intro hge
    simp [at_s, at_error, hge]
  · intro hlt h63
    simp [at_s, Nat.not_le.mpr hlt, h63]
  · intro hlt h61
    have key : at_s env st =
        (if 0 < (at_parse_number st.at_cmd 3).1 % 256 ∧
            env.param_set ((at_parse_number st.at_cmd 3).1 % 256)
              (at_parse_number st.at_cmd ((at_parse_number st.at_cmd 3).2 + 1)).1 = true
         then [Event.okLine env.nodeId] else [Event.errLine env.nodeId]) := by
      by_cases hpos : 0 < (at_parse_number st.at_cmd 3).1 % 256
      · by_cases hset : env.param_set ((at_parse_number st.at_cmd 3).1 % 256)
            (at_parse_number st.at_cmd ((at_parse_number st.at_cmd 3).2 + 1)).1 = true
        · simp [at_s, Nat.not_le.mpr hlt, h61, hpos, hset, at_ok]
        · simp [at_s, Nat.not_le.mpr hlt, h61, hpos, hset, at_error]
      · simp [at_s, Nat.not_le.mpr hlt, h61, hpos, at_error]
    rw [key]
    by_cases hc : 0 < (at_parse_number st.at_cmd 3).1 % 256 ∧
        env.param_set ((at_parse_number st.at_cmd 3).1 % 256)
          (at_parse_number st.at_cmd ((at_parse_number st.at_cmd 3).2 + 1)).1 = true
    · simp [hc]
    · simp [hc]

/-- Witness for claim C4 on the line ATS0?: the read-only register 0 is
printed. -/
theorem claim_C4_witness :
    at_s envFix stS0q = [Event.sregLine envFix.nodeId (envFix.param_get 0)] :=
  (claim_C4 envFix stS0q (by decide) (by decide) (by decide)).2.1 (by decide) (by decide)

lemma at_parse_number_spec (cmd : List Nat) (idx : Nat) :
    at_parse_number cmd idx =
      (decimalOf (digitRun cmd idx) % 4294967296, idx + (digitRun cmd idx).length) := by
  unfold at_parse_number digitRun decimalOf
  exact parseFuel_spec _ cmd 0 idx (by omega) (by norm_num)

lemma lt_of_cmdGet_ne (cmd : List Nat) (i : Nat) (h : cmdGet cmd i ≠ 0) :
    i < cmd.length := by
  by_contra hc
  exact h (cmdGet_of_le cmd i (by omega))

lemma rtScanFuel_ge (cmd : List Nat) : ∀ (fuel idx : Nat), idx ≤ rtScanFuel cmd idx fuel := by
  intro fuel
  induction fuel with
  | zero => intro idx; exact Nat.le_refl idx
  | succ fuel ih =>
      intro idx
      by_cases h : cmdGet cmd idx = 44
      · simp [rtScanFuel, h]
      · simp only [rtScanFuel, h, if_false]
        exact Nat.le_trans (Nat.le_succ idx) (ih (idx + 1))

lemma rtScanFuel_first (cmd : List Nat) : ∀ (fuel idx j : Nat), idx ≤ j →
    j < rtScanFuel cmd idx fuel → cmdGet cmd j ≠ 44 := by
  intro fuel
  induction fuel with
  | zero =>
      intro idx j h1 h2
      simp only [rtScanFuel] at h2
      omega
  | succ fuel ih =>
      intro idx j h1 h2
      by_cases h : cmdGet cmd idx = 44
      · rw [show rtScanFuel cmd idx (fuel + 1) = idx from by simp [rtScanFuel, h]] at h2
        omega
      · rw [show rtScanFuel cmd idx (fuel + 1) = rtScanFuel cmd (idx + 1) fuel from by
            simp [rtScanFuel, h]] at h2
        rcases Nat.eq_or_lt_of_le h1 with he | hlt
        · exact fun hc => h (he ▸ hc)
        · exact ih (idx + 1) j hlt h2

lemma rtScanFuel_exhaust (cmd : List Nat) : ∀ (fuel idx : Nat),
    cmdGet cmd (rtScanFuel cmd idx fuel) ≠ 44 → rtScanFuel cmd idx fuel = idx + fuel := by
  intro fuel
  induction fuel with
  | zero => intro idx _; simp [rtScanFuel]
  | succ fuel ih =>
      intro idx h
      by_cases hc : cmdGet cmd idx = 44
      · rw [show rtScanFuel cmd idx (fuel + 1) = idx from by simp [rtScanFuel, hc]] at h
        exact absurd hc h
      · rw [show rtScanFuel cmd idx (fuel + 1) = rtScanFuel cmd (idx + 1) fuel from by
            simp [rtScanFuel, hc]] at h ⊢
        rw [ih (idx + 1) h]
        omega

lemma at_command_rt (env : Env) (st : AtState) (hr : st.at_cmd_ready = true)
    (hpre : 2 ≤ st.at_cmd.length ∧ cmdGet st.at_cmd 0 = 82 ∧ cmdGet st.at_cmd 1 = 84) :
    at_command env st =
      (if cmdGet st.at_cmd (rtScan st.at_cmd st.at_cmd.length 3) = 44 then
        CmdResult.normal (clearCmd st)
          [Event.tdmRemoteAt
            ((at_parse_number (st.at_cmd.set (rtScan st.at_cmd st.at_cmd.length 3) 0)
              (rtScan st.at_cmd st.at_cmd.length 3 + 1)).1 % 65536)
            (st.at_cmd.set (rtScan st.at_cmd st.at_cmd.length 3) 0)]
      else
        CmdResult.normal (clearCmd st) [Event.tdmRemoteAt 65535 st.at_cmd]) := by
  simp only [at_command, hr, if_true]
  rw [if_pos hpre]
  rfl

/-- The ready line RTA,70000 as left by the line editor. -/
def stRT : AtState :=
  ⟨[82, 84, 65, 44, 55, 48, 48, 48, 48], true, false, 0, .waitForIdle, 100⟩

/-- Claim C7, original wording refuted: on the line RTA,70000 the digits
after the comma parse to 70000, but the forwarded destination is 4464: the
uint32 result of the lexer is assigned to the uint16 destination, so the
parsed node id is reduced modulo 65536 before forwarding. -/
theorem claim_C7_cex :
    decimalOf (digitRun (stRT.at_cmd.set 3 0) 4) = 70000 ∧
    at_command envFix stRT =
      CmdResult.normal ⟨[], false, false, 0, .waitForIdle, 100⟩
        [Event.tdmRemoteAt 4464 [82, 84, 65, 0, 55, 48, 48, 48, 48]] ∧
    (4464 : Nat) ≠ 70000 := by
  decide

/-- Claim C7 (amended): for every ready line of length at least 2 beginning
RT: when the scan from offset 3 finds a comma (the first one, inside the
line), the comma cell is overwritten with a terminator, the digits after
the comma are parsed and reduced modulo 65536 (the destination is a uint16
node id) and the truncated buffer is forwarded to that destination; when
the scan finds no comma, the unmodified buffer is forwarded to the
broadcast address 65535; in both cases the forward is the only effect, so
no OK or ERROR reply is printed. -/
theorem claim_C7 (env : Env) (st : AtState) (hr : st.at_cmd_ready = true)
    (hlen : 2 ≤ st.at_cmd.length) (hR : cmdGet st.at_cmd 0 = 82)
    (hT : cmdGet st.at_cmd 1 = 84) :
    (cmdGet st.at_cmd (rtScan st.at_cmd st.at_cmd.length 3) = 44 →
      3 ≤ rtScan st.at_cmd st.at_cmd.length 3 ∧
      rtScan st.at_cmd st.at_cmd.length 3 < st.at_cmd.length ∧
      (∀ j, 3 ≤ j → j < rtScan st.at_cmd st.at_cmd.length 3 → cmdGet st.at_cmd j ≠ 44) ∧
      at_command env st =
        CmdResult.normal (clearCmd st)
          [Event.tdmRemoteAt
            (decimalOf (digitRun (st.at_cmd.set (rtScan st.at_cmd st.at_cmd.length 3) 0)
              (rtScan st.at_cmd st.at_cmd.length 3 + 1)) % 65536)
            (st.at_cmd.set (rtScan st.at_cmd st.at_cmd.length 3) 0)]) ∧
    (cmdGet st.at_cmd (rtScan st.at_cmd st.at_cmd.length 3) ≠ 44 →
      (∀ j, 3 ≤ j → j < st.at_cmd.length → cmdGet st.at_cmd j ≠ 44) ∧
      at_command env st =
        CmdResult.normal (clearCmd st) [Event.tdmRemoteAt 65535 st.at_cmd]) := by
  have hkey := at_command_rt env st hr ⟨hlen, hR, hT⟩
  constructor
  · intro hcomma
    refine ⟨rtScanFuel_ge st.at_cmd _ 3, ?_, ?_, ?_⟩
    · exact lt_of_cmdGet_ne st.at_cmd _ (by rw [hcomma]; norm_num)
    · intro j h3 hj
      exact rtScanFuel_first st.at_cmd _ 3 j h3 hj
    · rw [hkey, if_pos hcomma, at_parse_number_spec]
      have hmod : decimalOf (digitRun (st.at_cmd.set (rtScan st.at_cmd st.at_cmd.length 3) 0)
            (rtScan st.at_cmd st.at_cmd.length 3 + 1)) % 4294967296 % 65536 =
          decimalOf (digitRun (st.at_cmd.set (rtScan st.at_cmd st.at_cmd.length 3) 0)
            (rtScan st.at_cmd st.at_cmd.length 3 + 1)) % 65536 :=
        Nat.mod_mod_of_dvd _ (by norm_num)
      rw [hmod]
  · intro hnone
    constructor
    · intro j h3 hjlen
      have hex := rtScanFuel_exhaust st.at_cmd (st.at_cmd.length - 3) 3 hnone
      apply rtScanFuel_first st.at_cmd (st.at_cmd.length - 3) 3 j h3
      rw [hex]
      omega
    · rw [hkey, if_neg hnone]

lemma at_command_ready_clears (env : Env) (st : AtState) (hr : st.at_cmd_ready = true) :
    ∀ st2 evs, at_command env st = CmdResult.normal st2 evs →
      st2.at_cmd = [] ∧ st2.at_cmd_ready = false := by
  intro st2 evs heq
  simp only [at_command, hr, if_true] at heq
  repeat' split at heq
  all_goals
    first
      | exact CmdResult.noConfusion heq
      | (injection heq with h1 h2
         subst h1
         exact ⟨rfl, rfl⟩)

/-- Claim C6: whenever the dispatcher consumes a ready line and returns
(every routing outcome except the software reset and the forced fault),
the buffer length is reset to 0 and the ready flag to false; a ready line
matching neither the RT nor the AT prefix additionally emits nothing. -/
theorem claim_C6 (env : Env) (st : AtState) (hr : st.at_cmd_ready = true)
    (st2 : AtState) (evs : List Event)
    (heq : at_command env st = CmdResult.normal st2 evs) :
    at_cmd_len st2 = 0 ∧ st2.at_cmd_ready = false ∧
    (¬(2 ≤ st.at_cmd.length ∧ cmdGet st.at_cmd 0 = 82 ∧ cmdGet st.at_cmd 1 = 84) →
     ¬(2 ≤ st.at_cmd.length ∧ cmdGet st.at_cmd 0 = 65 ∧ cmdGet st.at_cmd 1 = 84) →
     evs = []) := by
  obtain ⟨ha, hb⟩ := at_command_ready_clears env st hr st2 evs heq
  refine ⟨by simp [at_cmd_len, ha], hb, ?_⟩
  intro hnrt hnat
  simp only [at_command, hr, if_true] at heq
  rw [if_neg hnrt, if_neg hnat] at heq
  injection heq with _ h2
  exact h2.symm

/-- Claim C9: from any state satisfying the buffer invariant
at_cmd_len <= AT_CMD_MAXLEN, every buffer-mutating operation (line editor
byte input, timer tick with its AT synthesis, dispatcher run) preserves the
invariant, and every buffer cell it writes lies inside the
AT_CMD_MAXLEN + 1 storage cells. -/
theorem claim_C9 (env : Env) (c : Nat) (st : AtState)
    (hinv : at_cmd_len st ≤ AT_CMD_MAXLEN) :
    at_cmd_len (at_input c st).1 ≤ AT_CMD_MAXLEN ∧
    (∀ i ∈ at_input_writes c st, i < AT_CMD_MAXLEN + 1) ∧
    at_cmd_len (at_timer st) ≤ AT_CMD_MAXLEN ∧
    (∀ i ∈ at_timer_writes st, i < AT_CMD_MAXLEN + 1) ∧
    (∀ st2 evs, at_command env st = CmdResult.normal st2 evs →
      at_cmd_len st2 ≤ AT_CMD_MAXLEN) ∧
    (∀ i ∈ at_command_writes st, i < AT_CMD_MAXLEN + 1) := by
  have hlen : st.at_cmd.length ≤ 16 := by
    simpa [at_cmd_len, AT_CMD_MAXLEN] using hinv
  refine ⟨?_, ?_, ?_, ?_, ?_, ?_⟩
  · unfold at_input
    split
    · simpa [at_cmd_len, AT_CMD_MAXLEN] using hlen
    · split
      · split
        · simp only [at_cmd_len, AT_CMD_MAXLEN]
          rw [List.length_dropLast]
          omega
        · simpa [at_cmd_len, AT_CMD_MAXLEN] using hlen
      · split
        · split
          · simp only [at_cmd_len, AT_CMD_MAXLEN, List.length_append, List.length_cons,
              List.length_nil] at *
            omega
          · simpa [at_cmd_len, AT_CMD_MAXLEN] using hlen
        · simp [at_cmd_len]
  · intro i hi
    unfold at_input_writes at hi
    repeat' split at hi
    all_goals simp [AT_CMD_MAXLEN] at hi ⊢
    all_goals omega
  · by_cases h0 : 0 < st.at_plus_counter
    · by_cases h1 : st.at_plus_counter - 1 = 0
      · cases hs : st.at_plus_state with
        | waitForIdle => simpa [at_timer, at_cmd_len, AT_CMD_MAXLEN, h0, h1, hs] using hlen
        | waitForPlus1 => simpa [at_timer, at_cmd_len, AT_CMD_MAXLEN, h0, h1, hs] using hlen
        | waitForPlus2 => simpa [at_timer, at_cmd_len, AT_CMD_MAXLEN, h0, h1, hs] using hlen
        | waitForPlus3 => simpa [at_timer, at_cmd_len, AT_CMD_MAXLEN, h0, h1, hs] using hlen
        | waitForEnable => simp [at_timer, at_cmd_len, AT_CMD_MAXLEN, h0, h1, hs]
      · simpa [at_timer, at_cmd_len, AT_CMD_MAXLEN, h0, h1] using hlen
    · simpa [at_timer, at_cmd_len, AT_CMD_MAXLEN, h0] using hlen
  · intro i hi
    unfold at_timer_writes at hi
    split at hi
    · simp [AT_CMD_MAXLEN] at hi ⊢
      rcases hi with h | h | h <;> omega
    · simp at hi
  · intro st2 evs heq
    by_cases hr : st.at_cmd_ready = true
    · have := (at_command_ready_clears env st hr st2 evs heq).1
      simp [at_cmd_len, this]
    · have hrf : st.at_cmd_ready = false := by
        cases hb : st.at_cmd_ready
        · rfl
        · exact absurd hb hr
      simp only [at_command, hrf, Bool.false_eq_true, if_false] at heq
      injection heq with h1 _
      rw [← h1]
      exact hinv
  · intro i hi
    unfold at_command_writes at hi
    split at hi
    next hcond =>
      simp at hi
      subst hi
      have hlt := lt_of_cmdGet_ne st.at_cmd _ (by rw [hcond.2.2.2.2]; norm_num)
      simp only [AT_CMD_MAXLEN]
      omega
    next => simp at hi

/-- Witness for claim C9 at the ATS256? state and byte 65. -/
theorem claim_C9_witness :
    at_cmd_len (at_input 65 stS256).1 ≤ AT_CMD_MAXLEN ∧
    at_cmd_len (at_timer stS256) ≤ AT_CMD_MAXLEN :=
  ⟨(claim_C9 envFix 65 stS256 (by decide)).1,
   (claim_C9 envFix 65 stS256 (by decide)).2.2.1⟩

/-- The ready line BBB, matching neither prefix. -/
def stNP : AtState := ⟨[66, 66, 66], true, true, 0, .waitForIdle, 100⟩

/-- Witness for claim C6 on the line BBB, which matches neither prefix. -/
theorem claim_C6_witness :
    at_cmd_len (clearCmd stNP) = 0 ∧ (clearCmd stNP).at_cmd_ready = false ∧
    (¬(2 ≤ stNP.at_cmd.length ∧ cmdGet stNP.at_cmd 0 = 82 ∧ cmdGet stNP.at_cmd 1 = 84) →
     ¬(2 ≤ stNP.at_cmd.length ∧ cmdGet stNP.at_cmd 0 = 65 ∧ cmdGet stNP.at_cmd 1 = 84) →
     ([] : List Event) = []) :=
  claim_C6 envFix stNP rfl (clearCmd stNP) [] (by decide)

/-- The ready line ATPO=9 as left by the line editor. -/
def stPO9 : AtState := ⟨[65, 84, 80, 79, 61, 57], true, true, 0, .waitForIdle, 100⟩

/-- Claim C8, original wording refuted: on the line ATPO=9 the pin
sub-dispatcher issues pins_user_set_io on pin 9, which is not below
PIN_MAX: the only validation applied to the pin digit before the pin I/O
call is isdigit, never a comparison with PIN_MAX. -/
theorem claim_C8_cex :
    Event.pinCall (PinOp.setIo 9 PIN_OUTPUT) ∈ at_p envFix stPO9 ∧ ¬ (9 < PIN_MAX) := by
  decide

/-- Claim C8 (amended): every pin I/O operation issued by the pin
sub-dispatcher carries a pin index below 10: the single-digit ATPO, ATPI,
ATPR and ATPC paths validate the byte at position 5 only with isdigit, and
the ATPP dump loop is bounded by PIN_MAX; no path compares the parsed pin
index with PIN_MAX before the pin I/O call. -/
theorem claim_C8 (env : Env) (st : AtState) (op : PinOp)
    (h : Event.pinCall op ∈ at_p env st) : pinOf op < 10 := by
  unfold at_p at h
  by_cases h3 : cmdGet st.at_cmd 3 = 80
  · rw [if_pos h3] at h
    simp only [List.mem_flatMap, List.mem_range] at h
    obtain ⟨pin, hpin, hmem⟩ := h
    have hp10 : pin < 10 := by
      have : PIN_MAX = 6 := rfl
      omega
    simp only [List.mem_cons, List.mem_singleton, List.not_mem_nil] at hmem
    rcases hmem with h1 | h1 | h1
    · cases h1; simpa [pinOf] using hp10
    · cases h1; simpa [pinOf] using hp10
    · simp at h1
  · rw [if_neg h3] at h
    by_cases h45 : cmdGet st.at_cmd 4 ≠ 61 ∨ ¬ isdigit (cmdGet st.at_cmd 5)
    · rw [if_pos h45] at h
      simp [at_error] at h
    · rw [if_neg h45] at h
      have hdig : isdigit (cmdGet st.at_cmd 5) = true := by
        push_neg at h45
        simpa using h45.2
      have hle : cmdGet st.at_cmd 5 ≤ 57 := by
        simp only [isdigit, decide_eq_true_eq] at hdig
        omega
      have hpin10 : cmdGet st.at_cmd 5 - 48 < 10 := by omega
      split at h
      · simp only [at_ok, List.mem_cons, List.mem_singleton, List.not_mem_nil] at h
        rcases h with h1 | h1
        · cases h1; simpa [pinOf] using hpin10
        · simp at h1
      · simp only [at_ok, List.mem_cons, List.mem_singleton, List.not_mem_nil] at h
        rcases h with h1 | h1
        · cases h1; simpa [pinOf] using hpin10
        · simp at h1
      · dsimp only at h
        split at h
        · simp only [List.mem_cons, List.mem_singleton, List.not_mem_nil] at h
          rcases h with h1 | h1 | h1
          · cases h1; simpa [pinOf] using hpin10
          · cases h1; simpa [pinOf] using hpin10
          · simp at h1
        · simp only [at_error, List.cons_append, List.nil_append, List.mem_cons,
            List.mem_singleton, List.not_mem_nil] at h
          rcases h with h1 | h1
          · cases h1; simpa [pinOf] using hpin10
          · simp at h1
      · split at h
        · simp [at_error] at h
        · dsimp only at h
          split at h
          · simp only [at_ok, List.mem_cons, List.mem_singleton, List.not_mem_nil] at h
            rcases h with h1 | h1
            · cases h1; simpa [pinOf] using hpin10
            · simp at h1
          · simp only [at_error, List.mem_cons, List.mem_singleton,
              List.not_mem_nil] at h
            rcases h with h1 | h1
            · cases h1; simpa [pinOf] using hpin10
            · simp at h1
      · simp [at_error] at h

/-- Witness for claim C8 on the line ATPO=9: the issued direction write on
pin 9 is below 10. -/
theorem claim_C8_witness : pinOf (PinOp.setIo 9 PIN_OUTPUT) < 10 :=
  claim_C8 envFix stPO9 (PinOp.setIo 9 PIN_OUTPUT) (by decide)

/-- The ready line RTX,5 as left by the line editor. -/
def stRTc : AtState := ⟨[82, 84, 88, 44, 53], true, false, 0, .waitForIdle, 100⟩

/-- Witness for claim C7 on the line RTX,5: the comma at cell 3 is
truncated and the remainder is forwarded to node 5. -/
theorem claim_C7_witness :
    at_command envFix stRTc =
      CmdResult.normal (clearCmd stRTc)
        [Event.tdmRemoteAt
          (decimalOf (digitRun (stRTc.at_cmd.set (rtScan stRTc.at_cmd stRTc.at_cmd.length 3) 0)
            (rtScan stRTc.at_cmd stRTc.at_cmd.length 3 + 1)) % 65536)
          (stRTc.at_cmd.set (rtScan stRTc.at_cmd stRTc.at_cmd.length 3) 0)] :=
  ((claim_C7 envFix stRTc (by decide) (by decide) (by decide) (by decide)).1
    (by decide)).2.2.2

end SiKAT
